import Mathlib

/-!
Shallow embedding of the koa-session entry module (src/index.js): option
formatting and validation (formatOpts), argument normalization of the
exported setup function (module.exports), context prototype extension
(extendContext, lines 124-156) and the per-request middleware control flow
(the returned async function session, lines 38-50).

Caller-supplied backend objects are modelled by their duck-typed shape:
a Bool per required member records whether that member is a function,
which is all the source inspects at configuration time. The uuid generator
is an explicit parameter of type Nat -> String (a stream of fresh random
strings indexed by draw); genid values are likewise Nat -> String.
-/

namespace KoaSession

/-- Duck-typed shape of a caller-supplied store: whether get, set and
destroy are functions (the three is.function checks, lines 88-90). -/
structure StoreShape where
  get : Bool
  set : Bool
  destroy : Bool

/-- Duck-typed shape of a caller-supplied externalKey resolver: whether
get and set are functions (lines 95-96). -/
structure ExternalKeyShape where
  get : Bool
  set : Bool

/-- Duck-typed shape of a caller-supplied ContextStore: whether it is a
class and whether its prototype carries get, set and destroy functions
(lines 101-104). -/
structure ContextStoreShape where
  classLike : Bool
  protoGet : Bool
  protoSet : Bool
  protoDestroy : Bool

/-- Options object as received by formatOpts; none models a JS
null/undefined member. pfx models opts.prefix, maxAgePresent models the
JS membership test ('maxAge' in opts), encodeIsFn/decodeIsFn model the
typeof-function tests on opts.encode/opts.decode. -/
structure OptsIn where
  key : Option String := none
  maxAgePresent : Bool := false
  maxAge : Option Int := none
  maxage : Option Int := none
  overwrite : Option Bool := none
  httpOnly : Option Bool := none
  signed : Option Bool := none
  autoCommit : Option Bool := none
  encodeIsFn : Bool := false
  decodeIsFn : Bool := false
  store : Option StoreShape := none
  externalKey : Option ExternalKeyShape := none
  contextStore : Option ContextStoreShape := none
  genid : Option (Nat → String) := none
  pfx : Option String := none

/-- Options object as returned by formatOpts (the source mutates opts in
place and returns it; this is the post-state). encodeCustom/decodeCustom
record whether the caller-supplied codec member was kept, false meaning
util.encode/util.decode were installed. -/
structure OptsOut where
  key : String
  maxAge : Option Int
  overwrite : Bool
  httpOnly : Bool
  signed : Bool
  autoCommit : Bool
  encodeCustom : Bool
  decodeCustom : Bool
  store : Option StoreShape
  externalKey : Option ExternalKeyShape
  contextStore : Option ContextStoreShape
  genid : Nat → String
  pfx : Option String

/-- The node assert(cond, msg) call: throws msg when cond is falsy. -/
def jsAssert (b : Bool) (msg : String) : Except String Unit :=
  if b then Except.ok () else Except.error msg

/-- Lines 86-91: shape checks on opts.store. -/
def checkStore : Option StoreShape → Except String Unit
  | none => Except.ok ()
  | some s => do
    jsAssert s.get "store.get must be function"
    jsAssert s.set "store.set must be function"
    jsAssert s.destroy "store.destroy must be function"

/-- Lines 93-97: shape checks on opts.externalKey. -/
def checkExternalKey : Option ExternalKeyShape → Except String Unit
  | none => Except.ok ()
  | some ek => do
    jsAssert ek.get "externalKey.get must be function"
    jsAssert ek.set "externalKey.set must be function"

/-- Lines 99-105: shape checks on opts.ContextStore. -/
def checkContextStore : Option ContextStoreShape → Except String Unit
  | none => Except.ok ()
  | some cs => do
    jsAssert cs.classLike "ContextStore must be a class"
    jsAssert cs.protoGet "ContextStore.prototype.get must be function"
    jsAssert cs.protoSet "ContextStore.prototype.set must be function"
    jsAssert cs.protoDestroy "ContextStore.prototype.destroy must be function"

/-- Lines 61-113: format and check session options. JS truthiness of the
string options key and prefix (empty string is falsy) is spelled out in
the corresponding matches; the == null tests on the four Bool options
become Option.getD. -/
def formatOpts (uuid : Nat → String) (o? : Option OptsIn) : Except String OptsOut := do
  let o := o?.getD {}
  let key : String :=
    match o.key with
    | some s => if s = "" then "koa:sess" else s
    | none => "koa:sess"
  let maxAge := if o.maxAgePresent then o.maxAge else o.maxage
  let overwrite := o.overwrite.getD true
  let httpOnly := o.httpOnly.getD true
  let signed := o.signed.getD true
  let autoCommit := o.autoCommit.getD true
  checkStore o.store
  checkExternalKey o.externalKey
  checkContextStore o.contextStore
  let genid : Nat → String :=
    match o.genid with
    | some g => g
    | none =>
      match o.pfx with
      | some p => if p = "" then uuid else fun n => p ++ uuid n
      | none => uuid
  pure {
    key := key
    maxAge := maxAge
    overwrite := overwrite
    httpOnly := httpOnly
    signed := signed
    autoCommit := autoCommit
    encodeCustom := o.encodeIsFn
    decodeCustom := o.decodeIsFn
    store := o.store
    externalKey := o.externalKey
    contextStore := o.contextStore
    genid := genid
    pfx := o.pfx
  }

/-- An argument of the exported setup function: hasUse records whether
typeof v.use is a function (an app instance), opts the option members
read when the value is treated as the options object. -/
structure JsVal where
  hasUse : Bool
  opts : OptsIn

/-- Lines 24-36: argument normalization of module.exports. The two
parameters may come in either order (swap when the first has a use
function); a missing or use-less app throws a TypeError; otherwise the
formatted options and the app (whose context is extended) are produced. -/
def sessionExport (uuid : Nat → String) (a1 a2 : Option JsVal) :
    Except String (OptsOut × JsVal) := do
  let pair : Option JsVal × Option JsVal :=
    match a1 with
    | some v => if v.hasUse then (a2, a1) else (a1, a2)
    | none => (a1, a2)
  match pair.2 with
  | none => throw "app instance required: `session(opts, app)`"
  | some app =>
    if app.hasUse then do
      let fopts ← formatOpts uuid (pair.1.map JsVal.opts)
      pure (fopts, app)
    else throw "app instance required: `session(opts, app)`"

/-- The awaited steps the returned middleware can take on one request. -/
inductive Event where
  | initFromExternal
  | next
  | commit
deriving DecidableEq

/-- The JS try/catch/finally of lines 41-49: the catch clause rethrows
the body error unchanged; the finalizer always runs after the body; an
error thrown by the finalizer replaces the result. Each side is a trace
of awaited steps paired with its outcome. -/
def tryCatchRethrowFinally (body fin : List Event × Except Nat Unit) :
    List Event × Except Nat Unit :=
  (body.1 ++ fin.1,
   match fin.2 with
   | Except.error e => Except.error e
   | Except.ok _ => body.2)

/-- Lines 38-50: the returned middleware on one request, as the trace of
awaited steps in order and the outcome surfaced to the caller. hasStore
is whether sess.store is set (external-store mode); nextResult and
commitResult are the outcomes of awaiting next() and sess.commit(). -/
def sessionMiddleware (hasStore autoCommit : Bool)
    (nextResult commitResult : Except Nat Unit) :
    List Event × Except Nat Unit :=
  let load : List Event := if hasStore then [Event.initFromExternal] else []
  let body : List Event × Except Nat Unit := ([Event.next], nextResult)
  let fin : List Event × Except Nat Unit :=
    if autoCommit then ([Event.commit], commitResult) else ([], Except.ok ())
  let r := tryCatchRethrowFinally body fin
  (load ++ r.1, r.2)

/-- Outward-facing session state: the backend records and the session
cookie of one client. -/
structure OutwardState where
  backend : List (String × String)
  cookie : Option String

/-- Modelled from the spec: the outward effect of each awaited step of
the middleware. The lifecycle module (lib/context, outside src) owns the
write logic, so the commit effect is an arbitrary parameter; per the
control flow of spec section 2, loading from the backend and running the
downstream handlers read or mutate only the in-memory session, never the
backend record or the cookie, which only the commit of the Engine writes. -/
def applyEvent (commitEffect : OutwardState → OutwardState) :
    Event → OutwardState → OutwardState
  | Event.initFromExternal, s => s
  | Event.next, s => s
  | Event.commit, s => commitEffect s

/-- One ContextSession instance as constructed by new ContextSession(this,
opts): the context it was constructed on, the options captured, and the
value of the construction counter when it was built (distinct counter
values mean distinct construction events). -/
structure ContextSession where
  ctxId : Nat
  opts : OptsOut
  instanceId : Nat

/-- A request context: its identity and the private _CONTEXT_SESSION
slot caching the lazily built ContextSession. -/
structure CtxState where
  id : Nat
  cached : Option ContextSession

/-- Lines 131-139: the CONTEXT_SESSION getter. State is the context
paired with the global construction counter; a cache hit returns the
stored instance unchanged, a miss constructs one, stores it and bumps
the counter. -/
def contextSessionGet (opts : OptsOut) (s : CtxState × Nat) :
    ContextSession × (CtxState × Nat) :=
  match s.1.cached with
  | some cs => (cs, s)
  | none =>
    let cs : ContextSession := ⟨s.1.id, opts, s.2⟩
    (cs, ({ s.1 with cached := some cs }, s.2 + 1))

/-- A property descriptor installed by Object.defineProperties: a getter
(which may mutate the state, the lazy construction does) and an optional
setter. -/
structure Desc (σ α : Type) where
  get : σ → α × σ
  set : Option (α → σ → σ)

/-- Reading a property runs its getter. -/
def descRead {σ α : Type} (d : Desc σ α) (s : σ) : α × σ :=
  d.get s

/-- Assigning to a property runs its setter when one exists; an accessor
property without a setter leaves the object unchanged. -/
def descWrite {σ α : Type} (d : Desc σ α) (v : α) (s : σ) : σ :=
  match d.set with
  | some f => f v s
  | none => s

/-- The value read and written through the session property: the mapping,
or null (spec section 6: get/set the mapping or replace wholesale). -/
def SessVal : Type := Option (List (String × String))

/-- The three properties defineProperties installs on the context
prototype (lines 130-155). -/
structure ProtoDefs where
  contextSession : CtxState × Nat → ContextSession × (CtxState × Nat)
  session : Desc (CtxState × Nat) SessVal
  sessionOptions : Desc (CtxState × Nat) OptsOut

/-- Lines 130-155: the property definitions. ContextSession.get and
ContextSession.set live in lib/context (outside src); extendContext only
forwards to them, so they are the parameters csGet and csSet. Every
getter goes through the CONTEXT_SESSION getter, hence may lazily build
and cache the instance; sessionOptions has a getter and no setter. -/
def mkDefs (csGet : ContextSession → SessVal)
    (csSet : SessVal → ContextSession → ContextSession) (opts : OptsOut) :
    ProtoDefs :=
  { contextSession := contextSessionGet opts
    session :=
      { get := fun s =>
          let r := contextSessionGet opts s
          (csGet r.1, r.2)
        set := some (fun v s =>
          let r := contextSessionGet opts s
          ({ r.2.1 with cached := some (csSet v r.1) }, r.2.2)) }
    sessionOptions :=
      { get := fun s =>
          let r := contextSessionGet opts s
          (r.1.opts, r.2)
        set := none } }

/-- Lines 124-156: extendContext on the context prototype, modelled as
the optional bundle of installed property definitions: when the private
CONTEXT_SESSION slot is already an own property the function returns at
once, leaving the existing definitions; otherwise it installs fresh ones. -/
def extendContext (csGet : ContextSession → SessVal)
    (csSet : SessVal → ContextSession → ContextSession) (opts : OptsOut)
    (ctx : Option ProtoDefs) : Option ProtoDefs :=
  match ctx with
  | some d => some d
  | none => some (mkDefs csGet csSet opts)

/-- n successive reads of the CONTEXT_SESSION property on one context,
returning the instances seen in order and the final state. -/
def accessN (opts : OptsOut) : Nat → CtxState × Nat → List ContextSession × (CtxState × Nat)
  | 0, s => ([], s)
  | n + 1, s =>
    let r := contextSessionGet opts s
    let rest := accessN opts n r.2
    (r.1 :: rest.1, rest.2)

/-- Whether an Except value is the thrown case. -/
def isErr {α : Type} : Except String α → Bool
  | Except.error _ => true
  | Except.ok _ => false

/-- The installed genid of a successful formatOpts run. -/
def genidOf : Except String OptsOut → Option (Nat → String)
  | Except.ok o => some o.genid
  | Except.error _ => none

lemma except_bind_err {α β : Type} (m : String) (f : α → Except String β) :
    (Except.error m >>= f) = Except.error m := rfl

lemma except_bind_ok {α β : Type} (a : α) (f : α → Except String β) :
    (Except.ok a >>= f) = f a := rfl

/-- formatOpts surfaces an error as soon as any of the three shape checks
fails. -/
lemma formatOpts_isErr_of_check (uuid : Nat → String) (o : OptsIn)
    (h : isErr (checkStore o.store) = true
       ∨ isErr (checkExternalKey o.externalKey) = true
       ∨ isErr (checkContextStore o.contextStore) = true) :
    isErr (formatOpts uuid (some o)) = true := by
  unfold formatOpts
  rcases h with h | h | h
  · cases hc : checkStore o.store with
    | error m => simp [Option.getD, hc, except_bind_err, isErr]
    | ok u => rw [hc] at h; simp [isErr] at h
  · cases hc : checkStore o.store with
    | error m => simp [Option.getD, hc, except_bind_err, isErr]
    | ok u =>
      cases he : checkExternalKey o.externalKey with
      | error m =>
        simp [Option.getD, hc, he, except_bind_err, except_bind_ok, isErr]
      | ok v => rw [he] at h; simp [isErr] at h
  · cases hc : checkStore o.store with
    | error m => simp [Option.getD, hc, except_bind_err, isErr]
    | ok u =>
      cases he : checkExternalKey o.externalKey with
      | error m =>
        simp [Option.getD, hc, he, except_bind_err, except_bind_ok, isErr]
      | ok v =>
        cases hk : checkContextStore o.contextStore with
        | error m =>
          simp [Option.getD, hc, he, hk, except_bind_err, except_bind_ok, isErr]
        | ok w => rw [hk] at h; simp [isErr] at h

/-- Reading the CONTEXT_SESSION property on a context whose private slot
already holds an instance returns that instance and changes nothing, any
number of times. -/
lemma accessN_cached (opts : OptsOut) :
    ∀ (n : Nat) (c : CtxState) (k : Nat) (cs : ContextSession),
      c.cached = some cs →
      accessN opts n (c, k) = (List.replicate n cs, (c, k)) := by
  intro n
  induction n with
  | zero => intro c k cs h; rfl
  | succ m ih =>
    intro c k cs h
    have hg : contextSessionGet opts (c, k) = (cs, (c, k)) := by
      unfold contextSessionGet
      rw [h]
    simp only [accessN, hg]
    rw [ih c k cs h]
    rfl

/-- C1: with autoCommit enabled, the middleware runs commit directly after
the downstream handler chain has finished, on the normal and on the
throwing path alike, and once commit has run the downstream outcome,
error included, is exactly what the middleware surfaces to its caller. -/
theorem commit_runs_after_next (hasStore : Bool) (nextResult : Except Nat Unit) :
    (sessionMiddleware hasStore true nextResult (Except.ok ())).1
      = (if hasStore then [Event.initFromExternal] else []) ++ [Event.next, Event.commit]
    ∧ (sessionMiddleware hasStore true nextResult (Except.ok ())).2 = nextResult := by
  cases hasStore <;> exact ⟨rfl, rfl⟩

/-- C2: with autoCommit disabled, the middleware never takes a commit
step, so whatever a commit would have done to the backend and the cookie,
the outward session state after the request is the state before it. -/
theorem no_commit_without_autoCommit (hasStore : Bool)
    (nextResult commitResult : Except Nat Unit)
    (commitEffect : OutwardState → OutwardState) (st : OutwardState) :
    Event.commit ∉ (sessionMiddleware hasStore false nextResult commitResult).1
    ∧ List.foldl (fun s e => applyEvent commitEffect e s) st
        (sessionMiddleware hasStore false nextResult commitResult).1 = st := by
  cases hasStore
  · exact ⟨by show Event.commit ∉ [Event.next]; decide, rfl⟩
  · exact ⟨by show Event.commit ∉ [Event.initFromExternal, Event.next]; decide, rfl⟩

/-- C3: on a fresh request context, the first read of the CONTEXT_SESSION
property constructs a single ContextSession bound to that context (its
ctxId is the id of the context), and each of the n further reads returns
that same cached instance: the construction counter advances exactly
once. -/
theorem contextSession_singleton (opts : OptsOut) (i k n : Nat) :
    accessN opts (n + 1) ({ id := i, cached := none }, k)
      = (List.replicate (n + 1) { ctxId := i, opts := opts, instanceId := k },
         ({ id := i, cached := some { ctxId := i, opts := opts, instanceId := k } }, k + 1)) := by
  have h := accessN_cached opts n
    { id := i, cached := some { ctxId := i, opts := opts, instanceId := k } } (k + 1)
    { ctxId := i, opts := opts, instanceId := k } rfl
  simp only [accessN, contextSessionGet]
  rw [h]
  rfl

/-- C7: in external-store mode the middleware awaits the backend load
first, then the downstream chain, then (when autoCommit is on) commit,
in that sequential order; in inline mode no load step precedes the
handlers. -/
theorem load_before_next_commit_after (ac : Bool) (nr cr : Except Nat Unit) :
    (sessionMiddleware true ac nr cr).1
      = Event.initFromExternal :: Event.next :: (if ac then [Event.commit] else [])
    ∧ Event.initFromExternal ∉ (sessionMiddleware false ac nr cr).1 := by
  cases ac
  · exact ⟨rfl, by show Event.initFromExternal ∉ [Event.next]; decide⟩
  · exact ⟨rfl, by show Event.initFromExternal ∉ [Event.next, Event.commit]; decide⟩

/-- C9: the setup function accepts its two arguments in either order and
configures identically, and throws a TypeError when neither argument is
an object with a use function. -/
theorem session_args_order_flexible (uuid : Nat → String) (oi ai : OptsIn) :
    sessionExport uuid (some { hasUse := false, opts := oi })
        (some { hasUse := true, opts := ai })
      = sessionExport uuid (some { hasUse := true, opts := ai })
        (some { hasUse := false, opts := oi })
    ∧ isErr (sessionExport uuid (some { hasUse := false, opts := oi })
        (some { hasUse := false, opts := ai })) = true
    ∧ isErr (sessionExport uuid none none) = true :=
  ⟨rfl, rfl, rfl⟩

/-- C10: installing the middleware a second time on a context prototype
that already carries the private session slot is a no-op: the first
installation's property definitions stay as they are. -/
theorem extendContext_idempotent
    (csGet csGet2 : ContextSession → SessVal)
    (csSet csSet2 : SessVal → ContextSession → ContextSession)
    (opts opts2 : OptsOut) (ctx : Option ProtoDefs) :
    extendContext csGet2 csSet2 opts2 (extendContext csGet csSet opts ctx)
      = extendContext csGet csSet opts ctx := by
  cases ctx <;> rfl

/-- C4: whatever the remaining options are, setup fails with a thrown
error whenever a supplied store misses get, set or destroy, a supplied
externalKey misses get or set, or a supplied ContextStore is not a class
or its prototype misses get, set or destroy; in the first of these cases
the exported setup function as a whole fails too, before any middleware
is produced. -/
theorem formatOpts_rejects_bad_shapes (uuid : Nat → String) (o ai : OptsIn) (b c d : Bool) :
    isErr (formatOpts uuid (some { o with store := some ⟨false, b, c⟩ })) = true
    ∧ isErr (formatOpts uuid (some { o with store := some ⟨b, false, c⟩ })) = true
    ∧ isErr (formatOpts uuid (some { o with store := some ⟨b, c, false⟩ })) = true
    ∧ isErr (formatOpts uuid (some { o with externalKey := some ⟨false, b⟩ })) = true
    ∧ isErr (formatOpts uuid (some { o with externalKey := some ⟨b, false⟩ })) = true
    ∧ isErr (formatOpts uuid (some { o with contextStore := some ⟨false, b, c, d⟩ })) = true
    ∧ isErr (formatOpts uuid (some { o with contextStore := some ⟨b, false, c, d⟩ })) = true
    ∧ isErr (formatOpts uuid (some { o with contextStore := some ⟨b, c, false, d⟩ })) = true
    ∧ isErr (formatOpts uuid (some { o with contextStore := some ⟨b, c, d, false⟩ })) = true
    ∧ isErr (sessionExport uuid
        (some { hasUse := false, opts := { o with store := some ⟨false, b, c⟩ } })
        (some { hasUse := true, opts := ai })) = true := by
  refine ⟨?_, ?_, ?_, ?_, ?_, ?_, ?_, ?_, ?_, ?_⟩
  · exact formatOpts_isErr_of_check uuid _ (Or.inl rfl)
  · exact formatOpts_isErr_of_check uuid _ (Or.inl (by cases b <;> rfl))
  · exact formatOpts_isErr_of_check uuid _ (Or.inl (by cases b <;> cases c <;> rfl))
  · exact formatOpts_isErr_of_check uuid _ (Or.inr (Or.inl rfl))
  · exact formatOpts_isErr_of_check uuid _ (Or.inr (Or.inl (by cases b <;> rfl)))
  · exact formatOpts_isErr_of_check uuid _ (Or.inr (Or.inr rfl))
  · exact formatOpts_isErr_of_check uuid _ (Or.inr (Or.inr (by cases b <;> rfl)))
  · exact formatOpts_isErr_of_check uuid _ (Or.inr (Or.inr (by cases b <;> cases c <;> rfl)))
  · exact formatOpts_isErr_of_check uuid _
      (Or.inr (Or.inr (by cases b <;> cases c <;> cases d <;> rfl)))
  · have hf : isErr (formatOpts uuid (some { o with store := some ⟨false, b, c⟩ })) = true :=
      formatOpts_isErr_of_check uuid _ (Or.inl rfl)
    cases hv : formatOpts uuid (some { o with store := some ⟨false, b, c⟩ }) with
    | ok v => rw [hv] at hf; simp [isErr] at hf
    | error m =>
      simp [sessionExport, hv, except_bind_err, isErr]

/-- C5: formatOpts installs the documented defaults: key is the string
koa:sess when unset, and overwrite, httpOnly, signed and autoCommit are
true when null or undefined, while caller-supplied values of these four,
false in particular, are preserved (a supplied key is preserved when it
is a non-empty string, the JS truthiness test on opts.key). -/
theorem formatOpts_defaults (uuid : Nat → String) (k : String) (b1 b2 b3 b4 : Bool) :
    (formatOpts uuid none).toOption.map OptsOut.key = some "koa:sess"
    ∧ (formatOpts uuid (some {})).toOption.map OptsOut.key = some "koa:sess"
    ∧ (formatOpts uuid (some { key := some k })).toOption.map OptsOut.key
        = some (if k = "" then "koa:sess" else k)
    ∧ (formatOpts uuid (some {})).toOption.map OptsOut.overwrite = some true
    ∧ (formatOpts uuid (some {})).toOption.map OptsOut.httpOnly = some true
    ∧ (formatOpts uuid (some {})).toOption.map OptsOut.signed = some true
    ∧ (formatOpts uuid (some {})).toOption.map OptsOut.autoCommit = some true
    ∧ (formatOpts uuid (some { overwrite := some b1 })).toOption.map OptsOut.overwrite
        = some b1
    ∧ (formatOpts uuid (some { httpOnly := some b2 })).toOption.map OptsOut.httpOnly
        = some b2
    ∧ (formatOpts uuid (some { signed := some b3 })).toOption.map OptsOut.signed
        = some b3
    ∧ (formatOpts uuid (some { autoCommit := some b4 })).toOption.map OptsOut.autoCommit
        = some b4 :=
  ⟨rfl, rfl, rfl, rfl, rfl, rfl, rfl, rfl, rfl, rfl, rfl⟩

/-- C6: with no caller-supplied genid the installed generator is the
random uuid source itself, and when a prefix is also supplied every
generated identifier is that prefix followed by a fresh uuid; a supplied
genid is installed unchanged and the prefix is then ignored. -/
theorem genid_uuid_and_pfx (uuid g : Nat → String) (p : String) (n : Nat) :
    genidOf (formatOpts uuid (some {})) = some uuid
    ∧ (genidOf (formatOpts uuid (some { pfx := some p }))).map (fun f => f n)
        = some (p ++ uuid n)
    ∧ genidOf (formatOpts uuid (some { genid := some g, pfx := some p })) = some g := by
  refine ⟨rfl, ?_, rfl⟩
  have hred : genidOf (formatOpts uuid (some { pfx := some p }))
      = some (if p = "" then uuid else fun m => p ++ uuid m) := rfl
  rw [hred]
  by_cases hp : p = ""
  · subst hp
    rfl
  · rw [if_neg hp]
    rfl

/-- C8: the sessionOptions property installed by extendContext has a
getter and no setter: assigning through it leaves the context state
untouched for every value, and reading it on a fresh context yields the
configured options object. -/
theorem sessionOptions_readonly (csGet : ContextSession → SessVal)
    (csSet : SessVal → ContextSession → ContextSession) (opts : OptsOut) :
    (mkDefs csGet csSet opts).sessionOptions.set = none
    ∧ (∀ (v : OptsOut) (s : CtxState × Nat),
        descWrite (mkDefs csGet csSet opts).sessionOptions v s = s)
    ∧ (∀ (i k : Nat),
        (descRead (mkDefs csGet csSet opts).sessionOptions
          ({ id := i, cached := none }, k)).1 = opts) :=
  ⟨rfl, fun _ _ => rfl, fun _ _ => rfl⟩

end KoaSession
